import Mathlib

/-!
Verification of the dedi-gateway distributed federation gateway.

This file gives a shallow embedding, in Lean 4, of the parts of the
source relevant to the claims under audit:

* the Python `dict` (insertion-ordered map with unique keys) is embedded
  as an association list with a replace-in-place update;
* the in-memory route cache (`cache/memory/cache.py`);
* the in-memory KMS (`kms/memory.py`);
* the in-memory admission-message repository
  (`database/memory/network_message.py`) and the status-changing
  endpoints (`view/management.py`, `view/service.py`);
* the network interface (`model/network_interface/network_interface.py`):
  `check_connectivity`, `send_message`, `broadcast_message`;
* the route interface (`model/network_interface/route_interface.py`):
  `process_route_notification`;
* the in-memory message broker (`cache/memory/message_broker.py`).

External effects (RSA key generation, DNS resolution, HTTP requests,
wall-clock time) are passed in as explicit parameters; fallible Python
code becomes `Except`, and an uncaught Python exception is a dedicated
error constructor.
-/

namespace DediGateway

/-! ## Python dict embedding

A Python `dict` keyed by strings, embedded as an association list.
`dictUpdate` mirrors `d[k] = v` (replace in place if present, append
otherwise), `dictGet` mirrors `d.get(k)`, and `dictDelete` mirrors
`del d[k]` (on states with unique keys, removing every pair with the
key coincides with removing the single one). -/

def dictUpdate {α : Type} (k : String) (v : α) : List (String × α) → List (String × α)
  | [] => [(k, v)]
  | (k', v') :: rest =>
      if k' = k then (k, v) :: rest else (k', v') :: dictUpdate k v rest

def dictGet {α : Type} (k : String) : List (String × α) → Option α
  | [] => none
  | (k', v') :: rest => if k' = k then some v' else dictGet k rest

def dictDelete {α : Type} (k : String) : List (String × α) → List (String × α)
  | [] => []
  | (k', v') :: rest =>
      if k' = k then dictDelete k rest else (k', v') :: dictDelete k rest

theorem dictGet_update {α : Type} (k k' : String) (v : α) (s : List (String × α)) :
    dictGet k' (dictUpdate k v s) = if k = k' then some v else dictGet k' s := by
  induction s with
  | nil => simp [dictUpdate, dictGet]
  | cons kv rest ih =>
      obtain ⟨k₀, v₀⟩ := kv
      simp only [dictUpdate]
      by_cases hk : k₀ = k
      · rw [if_pos hk]
        by_cases hkk : k = k'
        · simp [dictGet, hkk]
        · have hne : ¬(k₀ = k') := fun hc => hkk (hk.symm.trans hc)
          simp [dictGet, hkk, hne]
      · rw [if_neg hk]
        by_cases hk' : k₀ = k'
        · have hne : ¬(k = k') := fun hc => hk (hk'.trans hc.symm)
          simp [dictGet, hk', hne]
        · simp [dictGet, hk', ih]

theorem dictGet_delete {α : Type} (k k' : String) (s : List (String × α)) :
    dictGet k' (dictDelete k s) = if k = k' then none else dictGet k' s := by
  induction s with
  | nil => simp [dictDelete, dictGet]
  | cons kv rest ih =>
      obtain ⟨k₀, v₀⟩ := kv
      simp only [dictDelete]
      by_cases hk : k₀ = k
      · rw [if_pos hk]
        by_cases hkk : k = k'
        · rw [if_pos hkk, ih, if_pos hkk]
        · have hne : ¬(k₀ = k') := fun hc => hkk (hk.symm.trans hc)
          simp [dictGet, hkk, hne, ih]
      · rw [if_neg hk]
        by_cases hk' : k₀ = k'
        · have hne : ¬(k = k') := fun hc => hk (hk'.trans hc.symm)
          simp [dictGet, hk', hne]
        · simp [dictGet, hk', ih]

theorem dictGet_update_self {α : Type} (k : String) (v : α) (s : List (String × α)) :
    dictGet k (dictUpdate k v s) = some v := by
  simp [dictGet_update]

theorem dictGet_update_other {α : Type} {k k' : String} (h : k' ≠ k) (v : α)
    (s : List (String × α)) : dictGet k' (dictUpdate k v s) = dictGet k' s := by
  rw [dictGet_update, if_neg (fun hc => h hc.symm)]

theorem dictGet_delete_self {α : Type} (k : String) (s : List (String × α)) :
    dictGet k (dictDelete k s) = none := by
  simp [dictGet_delete]

theorem dictGet_delete_other {α : Type} {k k' : String} (h : k' ≠ k) (s : List (String × α)) :
    dictGet k' (dictDelete k s) = dictGet k' s := by
  rw [dictGet_delete, if_neg (fun hc => h hc.symm)]

theorem mem_dictUpdate {α : Type} (k : String) (v : α) (s : List (String × α)) :
    ∀ kv ∈ dictUpdate k v s, kv = (k, v) ∨ kv ∈ s := by
  induction s with
  | nil =>
      intro kv h
      simp only [dictUpdate, List.mem_singleton] at h
      exact Or.inl h
  | cons kv₀ rest ih =>
      obtain ⟨k₀, v₀⟩ := kv₀
      intro kv h
      by_cases hk : k₀ = k
      · simp only [dictUpdate, if_pos hk] at h
        rcases List.mem_cons.mp h with h | h
        · exact Or.inl h
        · exact Or.inr (List.mem_cons_of_mem _ h)
      · simp only [dictUpdate, if_neg hk] at h
        rcases List.mem_cons.mp h with h | h
        · subst h
          exact Or.inr (List.mem_cons_self _ _)
        · rcases ih kv h with h' | h'
          · exact Or.inl h'
          · exact Or.inr (List.mem_cons_of_mem _ h')

theorem mem_dictDelete {α : Type} (k : String) (s : List (String × α)) :
    ∀ kv ∈ dictDelete k s, kv ∈ s := by
  induction s with
  | nil =>
      intro kv h
      simp [dictDelete] at h
  | cons kv₀ rest ih =>
      obtain ⟨k₀, v₀⟩ := kv₀
      intro kv h
      by_cases hk : k₀ = k
      · simp only [dictDelete, if_pos hk] at h
        exact List.mem_cons_of_mem _ (ih kv h)
      · simp only [dictDelete, if_neg hk] at h
        rcases List.mem_cons.mp h with h | h
        · subst h
          exact List.mem_cons_self _ _
        · exact List.mem_cons_of_mem _ (ih kv h)

/-- Pairwise key distinctness is preserved by `dictUpdate`. -/
theorem keysDistinct_update {α : Type} (k : String) (v : α) {s : List (String × α)}
    (h : s.Pairwise (fun a b => a.1 ≠ b.1)) :
    (dictUpdate k v s).Pairwise (fun a b => a.1 ≠ b.1) := by
  induction s with
  | nil => simp [dictUpdate]
  | cons kv rest ih =>
      obtain ⟨k₀, v₀⟩ := kv
      rw [List.pairwise_cons] at h
      obtain ⟨hhead, htail⟩ := h
      by_cases hk : k₀ = k
      · subst hk
        simp only [dictUpdate, if_pos rfl]
        exact List.pairwise_cons.mpr ⟨hhead, htail⟩
      · simp only [dictUpdate, if_neg hk]
        refine List.pairwise_cons.mpr ⟨?_, ih htail⟩
        intro b hb
        rcases mem_dictUpdate k v rest b hb with hb' | hb'
        · rw [hb']; exact hk
        · exact hhead b hb'

/-- Pairwise key distinctness is preserved by `dictDelete`. -/
theorem keysDistinct_delete {α : Type} (k : String) {s : List (String × α)}
    (h : s.Pairwise (fun a b => a.1 ≠ b.1)) :
    (dictDelete k s).Pairwise (fun a b => a.1 ≠ b.1) := by
  induction s with
  | nil => simp [dictDelete]
  | cons kv rest ih =>
      obtain ⟨k₀, v₀⟩ := kv
      rw [List.pairwise_cons] at h
      obtain ⟨hhead, htail⟩ := h
      by_cases hk : k₀ = k
      · simp only [dictDelete, if_pos hk]
        exact ih htail
      · simp only [dictDelete, if_neg hk]
        refine List.pairwise_cons.mpr ⟨?_, ih htail⟩
        intro b hb
        exact hhead b (mem_dictDelete k rest b hb)

/-! ## Enums and the `Route` model (`model/route.py`)

Two distinct Python Enum classes named `ConnectivityType` (and likewise
`TransportType`) exist in the program: the `dedi_link.etc.enums` classes
imported by `model/route.py` and `model/network_interface/network_interface.py`,
and the gateway's own re-declaration in `etc/enums.py` with the same value
strings, imported by `model/network_interface/route_interface.py` and
`view/service.py`. `ConnectivityType` and `TransportType` below model the
`dedi_link` classes: every route read back from the cache carries their
members, because `Route.from_dict` constructs them. The gateway's own
class is modelled separately as `GwConnectivityType` where the
distinction is observable (Python compares Enum members by identity, so
members of the two classes are never equal, even with equal value
strings). -/

inductive ConnectivityType where
  | offline
  | direct
  | proxy
deriving DecidableEq, Repr

/-- Value strings of the `ConnectivityType` Python enum. -/
def ConnectivityType.value : ConnectivityType → String
  | .offline => "offline"
  | .direct => "direct"
  | .proxy => "proxy"

/-- Inverse of `ConnectivityType.value`: the `ConnectivityType(...)` enum call,
which raises `ValueError` (here `none`) on an unknown value. -/
def ConnectivityType.fromValue : String → Option ConnectivityType
  | "offline" => some .offline
  | "direct" => some .direct
  | "proxy" => some .proxy
  | _ => none

inductive TransportType where
  | sse
  | websocket
deriving DecidableEq, Repr

def TransportType.value : TransportType → String
  | .sse => "sse"
  | .websocket => "websocket"

def TransportType.fromValue : String → Option TransportType
  | "sse" => some .sse
  | "websocket" => some .websocket
  | _ => none

inductive AuthMessageStatus where
  | pending
  | accepted
  | rejected
deriving DecidableEq, Repr

def AuthMessageStatus.value : AuthMessageStatus → String
  | .pending => "pending"
  | .accepted => "accepted"
  | .rejected => "rejected"

/-- The `Route` model of `model/route.py`. -/
structure Route where
  network_id : String
  node_id : String
  connectivity_type : ConnectivityType
  transport_type : TransportType
  outbound : Bool
  proxy_nodes : List String
deriving DecidableEq, Repr

/-- The dictionary produced by `Route.to_dict` (camelCase fields, enum
values serialised to their strings). -/
structure RouteDict where
  networkId : String
  nodeId : String
  connectivityType : String
  transportType : String
  outbound : Bool
  proxyNodes : List String
deriving DecidableEq, Repr

def Route.to_dict (r : Route) : RouteDict :=
  { networkId := r.network_id
    nodeId := r.node_id
    connectivityType := r.connectivity_type.value
    transportType := r.transport_type.value
    outbound := r.outbound
    proxyNodes := r.proxy_nodes }

/-- The `Route.from_dict` classmethod; the enum constructor calls raise
`ValueError` on unrecognised values, modelled as `none`. -/
def Route.from_dict (payload : RouteDict) : Option Route := do
  let ct ← ConnectivityType.fromValue payload.connectivityType
  let tt ← TransportType.fromValue payload.transportType
  pure
    { network_id := payload.networkId
      node_id := payload.nodeId
      connectivity_type := ct
      transport_type := tt
      outbound := payload.outbound
      proxy_nodes := payload.proxyNodes }

theorem Route.from_dict_to_dict (r : Route) : Route.from_dict r.to_dict = some r := by
  cases r with
  | mk nid node ct tt ob pn =>
      cases ct <;> cases tt <;>
        simp [Route.to_dict, Route.from_dict, ConnectivityType.value,
          TransportType.value, ConnectivityType.fromValue, TransportType.fromValue]

/-! ## The in-memory route cache (`cache/memory/cache.py`)

`MemoryCache._routes` is a Python dict from `node_id` to the serialised
route dict. -/

/-- The `MemoryCache._routes` class attribute. -/
abbrev RoutesState := List (String × RouteDict)

/-- The `MemoryCache.save_route` coroutine:
`_routes[route.node_id] = route.to_dict()`. -/
def save_route (route : Route) (s : RoutesState) : RoutesState :=
  dictUpdate route.node_id route.to_dict s

/-- The `MemoryCache.get_route` coroutine: look the node id up, and
rebuild a `Route` from the stored dict (`Route.from_dict`); a miss is
`None`. -/
def get_route (node_id : String) (s : RoutesState) : Option Route :=
  (dictGet node_id s).bind Route.from_dict

/-- The `MemoryCache.delete_route` coroutine: delete the entry and report
whether one existed. -/
def delete_route (node_id : String) (s : RoutesState) : Bool × RoutesState :=
  if (dictGet node_id s).isSome then (true, dictDelete node_id s) else (false, s)

/-- Route-cache states reachable from the initial empty dict through the
cache interface. -/
inductive CacheReachable : RoutesState → Prop where
  | empty : CacheReachable []
  | save (route : Route) {s : RoutesState} :
      CacheReachable s → CacheReachable (save_route route s)
  | del (node_id : String) {s : RoutesState} :
      CacheReachable s → CacheReachable (delete_route node_id s).2

/-- Structural invariant of reachable route-cache states: keys are
pairwise distinct, and every stored dict's `nodeId` field equals its
key. -/
def CacheInv (s : RoutesState) : Prop :=
  s.Pairwise (fun a b => a.1 ≠ b.1) ∧ ∀ kv ∈ s, kv.2.nodeId = kv.1

theorem cacheInv_of_reachable {s : RoutesState} (h : CacheReachable s) : CacheInv s := by
  induction h with
  | empty => exact ⟨List.Pairwise.nil, by intro kv hkv; cases hkv⟩
  | save route h ih =>
      obtain ⟨hpw, hfield⟩ := ih
      refine ⟨keysDistinct_update _ _ hpw, ?_⟩
      intro kv hkv
      rcases mem_dictUpdate _ _ _ kv hkv with h' | h'
      · subst h'
        rfl
      · exact hfield kv h'
  | @del node_id s' h ih =>
      obtain ⟨hpw, hfield⟩ := ih
      unfold delete_route
      by_cases hmem : (dictGet node_id s').isSome
      · rw [if_pos hmem]
        exact ⟨keysDistinct_delete _ hpw, fun kv hkv => hfield kv (mem_dictDelete _ _ kv hkv)⟩
      · rw [if_neg hmem]
        exact ⟨hpw, hfield⟩

/-- In a state satisfying the cache invariant there is at most one entry
whose stored dict carries a given `nodeId` (hence, a fortiori, a given
`(networkId, nodeId)` pair). -/
theorem countP_nodeId_le_one (node_id : String) (p : RouteDict → Bool)
    {s : RoutesState} (h : CacheInv s) :
    s.countP (fun kv => kv.2.nodeId == node_id && p kv.2) ≤ 1 := by
  obtain ⟨hpw, hfield⟩ := h
  induction s with
  | nil => simp
  | cons kv rest ih =>
      rw [List.pairwise_cons] at hpw
      obtain ⟨hhead, htail⟩ := hpw
      have hrestfield : ∀ kv' ∈ rest, kv'.2.nodeId = kv'.1 :=
        fun kv' h' => hfield kv' (List.mem_cons_of_mem _ h')
      by_cases hp : (kv.2.nodeId == node_id && p kv.2) = true
      · rw [List.countP_cons_of_pos (fun x => x.2.nodeId == node_id && p x.2) rest hp]
        have hzero : rest.countP (fun kv' => kv'.2.nodeId == node_id && p kv'.2) = 0 := by
          rw [List.countP_eq_zero]
          intro kv' hkv'
          have hne : kv'.1 ≠ kv.1 := fun hc => hhead kv' hkv' hc.symm
          have hkey : kv.2.nodeId = kv.1 := hfield kv (List.mem_cons_self _ _)
          have hkey' : kv'.2.nodeId = kv'.1 := hrestfield kv' hkv'
          have hmatch : kv.2.nodeId = node_id := by
            have := (Bool.and_eq_true _ _).mp hp
            exact eq_of_beq this.1
          intro hcontra
          have := (Bool.and_eq_true _ _).mp hcontra
          have : kv'.2.nodeId = node_id := eq_of_beq this.1
          exact hne (by rw [← hkey', this, ← hmatch, hkey])
        omega
      · rw [List.countP_cons_of_neg (fun x => x.2.nodeId == node_id && p x.2) rest
          (by simpa using hp)]
        exact ih htail hrestfield

/-! ## Route interface (`model/network_interface/route_interface.py`) -/

/-- The gateway's own `ConnectivityType` Enum class (`etc/enums.py`), a
class distinct from the `dedi_link` one even though its value strings
("offline", "direct", "proxy") coincide. `route_interface.py` imports
this class. -/
inductive GwConnectivityType where
  | offline
  | direct
  | proxy
deriving DecidableEq, Repr

/-- Python `==` between a `dedi_link.etc.enums.ConnectivityType` member
(what `connected_route.connectivity_type` holds after `Route.from_dict`)
and a `dedi_gateway.etc.enums.ConnectivityType` member (what
`route_interface.py` compares against): Enum members compare by
identity, and members of two distinct Enum classes are never identical,
so the comparison is `False` for every pair of members. -/
def pyEnumEqDlGw (_a : ConnectivityType) (_b : GwConnectivityType) : Bool :=
  false

/-- The `RouteInterface.process_route_notification` coroutine: look up the
cached route to the reported broken node; return if there is none; then
test `connected_route.connectivity_type == ConnectivityType.PROXY` —
a cross-class Enum comparison (`route_interface.py` line 163), which is
always `False` — and delete the route only when it succeeds. -/
def process_route_notification (target_node : String) (s : RoutesState) : RoutesState :=
  match get_route target_node s with
  | none => s
  | some connected_route =>
      if pyEnumEqDlGw connected_route.connectivity_type GwConnectivityType.proxy then
        (delete_route target_node s).2
      else s

/-! ## The in-memory KMS (`kms/memory.py`)

`MemoryKms._network_node_keys` maps a network id to a dict that always
carries `privateKey` and `publicKey` and optionally carries a
`previousKey` sub-dict. RSA key-pair generation
(`Kms._generate_rsa_key_pair`) is an external source of randomness and is
passed in as the fresh pair. -/

structure KeyPair where
  privateKey : String
  publicKey : String
deriving DecidableEq, Repr

/-- One value of the `_network_node_keys` dict. `generate_network_node_key`
writes entries without a `previousKey`; nothing in `MemoryKms` ever writes
a `previousKey` into `_network_node_keys`. -/
structure NodeKeyEntry where
  privateKey : String
  publicKey : String
  previousKey : Option KeyPair
deriving DecidableEq, Repr

abbrev NodeKeysState := List (String × NodeKeyEntry)

/-- The `MemoryKms.generate_network_node_key` coroutine: generate a fresh
pair and store `{'privateKey': ..., 'publicKey': ...}` under the network
id, overwriting whatever was there; return the public key. -/
def generate_network_node_key (network_id : String) (freshPair : KeyPair)
    (s : NodeKeysState) : String × NodeKeysState :=
  (freshPair.publicKey,
    dictUpdate network_id
      { privateKey := freshPair.privateKey
        publicKey := freshPair.publicKey
        previousKey := none } s)

/-- The `KmsKeyManagementException` raised by the memory KMS getters:
`keyNotFound` for "Network node key for ... not found in memory KMS." and
`noPreviousVersion` for "No previous version of key ... found in memory
KMS.". -/
inductive KmsError where
  | keyNotFound (network_id : String)
  | noPreviousVersion (network_id : String)
deriving DecidableEq, Repr

/-- The `MemoryKms.get_network_node_public_key` coroutine. -/
def get_network_node_public_key (network_id : String) (previous_version : Bool)
    (s : NodeKeysState) : Except KmsError String :=
  match dictGet network_id s with
  | none => .error (.keyNotFound network_id)
  | some network_keys =>
      if previous_version then
        match network_keys.previousKey with
        | none => .error (.noPreviousVersion network_id)
        | some prev => .ok prev.publicKey
      else .ok network_keys.publicKey

/-! ## Claim C1 -/

/-- C1: calling `generate_network_node_key` twice on the same network id
does NOT retain the previous version. After the second call,
`get_network_node_public_key(network_id, previous_version=True)` raises
`KmsKeyManagementException` ("No previous version of key ... found"),
because the generator overwrites the entry without storing a
`previousKey`; the current public key is the second one. This refutes the
claimed rotation-with-retention behaviour at every input. -/
theorem generate_network_node_key_drops_previous (network_id : String)
    (kp1 kp2 : KeyPair) (s : NodeKeysState) :
    get_network_node_public_key network_id true
        (generate_network_node_key network_id kp2
          (generate_network_node_key network_id kp1 s).2).2
      = Except.error (KmsError.noPreviousVersion network_id)
    ∧ get_network_node_public_key network_id false
        (generate_network_node_key network_id kp2
          (generate_network_node_key network_id kp1 s).2).2
      = Except.ok kp2.publicKey := by
  constructor <;>
    simp [generate_network_node_key, get_network_node_public_key, dictGet_update_self]

/-! ## Claim C3 -/

/-- C3: route-cache semantics of `MemoryCache`. After `save_route r`,
`get_route r.node_id` returns a route equal to `r` and every other key is
untouched (so any prior entry for that peer has been replaced); after
`delete_route n`, `get_route n` is `None`; `delete_route` returns `True`
exactly when an entry existed; and in every reachable state there is at
most one entry per `(network_id, node_id)` pair. -/
theorem route_cache_semantics (r : Route) (n : String) (s : RoutesState)
    (hreach : CacheReachable s) :
    get_route r.node_id (save_route r s) = some r
    ∧ (∀ k, k ≠ r.node_id → dictGet k (save_route r s) = dictGet k s)
    ∧ get_route n (delete_route n s).2 = none
    ∧ (delete_route n s).1 = (dictGet n s).isSome
    ∧ ∀ network_id node_id,
        s.countP
            (fun kv => kv.2.nodeId == node_id && (kv.2.networkId == network_id)) ≤ 1 := by
  refine ⟨?_, ?_, ?_, ?_, ?_⟩
  · unfold get_route save_route
    rw [dictGet_update_self]
    exact Route.from_dict_to_dict r
  · intro k hk
    exact dictGet_update_other hk _ _
  · unfold get_route delete_route
    by_cases hmem : (dictGet n s).isSome
    · rw [if_pos hmem]
      simp [dictGet_delete_self]
    · rw [if_neg hmem]
      rw [Option.not_isSome_iff_eq_none] at hmem
      simp [hmem]
  · unfold delete_route
    by_cases hmem : (dictGet n s).isSome
    · rw [if_pos hmem, hmem]
    · rw [if_neg hmem]
      simp only [Bool.not_eq_true, Option.isSome] at hmem ⊢
      cases hget : dictGet n s with
      | none => rfl
      | some v => rw [hget] at hmem; simp at hmem
  · intro network_id node_id
    exact countP_nodeId_le_one node_id (fun d => d.networkId == network_id)
      (cacheInv_of_reachable hreach)

/-- Witness for C3 at a concrete cache state: a state holding a route for
"peer-b" is reachable; saving a route for "peer-a" makes it retrievable,
deleting "peer-b" empties its slot and reports `true`. -/
theorem route_cache_semantics_witness :
    get_route "peer-a"
        (save_route
          (Route.mk "net-1" "peer-a" ConnectivityType.direct TransportType.websocket true [])
          (save_route
            (Route.mk "net-1" "peer-b" ConnectivityType.direct TransportType.sse false [])
            []))
      = some (Route.mk "net-1" "peer-a" ConnectivityType.direct TransportType.websocket true [])
    ∧ get_route "peer-b"
        (delete_route "peer-b"
          (save_route
            (Route.mk "net-1" "peer-b" ConnectivityType.direct TransportType.sse false [])
            [])).2
      = none
    ∧ (delete_route "peer-b"
        (save_route
          (Route.mk "net-1" "peer-b" ConnectivityType.direct TransportType.sse false [])
          [])).1
      = (dictGet "peer-b"
          (save_route
            (Route.mk "net-1" "peer-b" ConnectivityType.direct TransportType.sse false [])
            [])).isSome := by
  have h := route_cache_semantics
    (Route.mk "net-1" "peer-a" ConnectivityType.direct TransportType.websocket true [])
    "peer-b"
    (save_route
      (Route.mk "net-1" "peer-b" ConnectivityType.direct TransportType.sse false []) [])
    (CacheReachable.save _ CacheReachable.empty)
  exact ⟨h.1, h.2.2.1, h.2.2.2.1⟩

/-! ## Claim C10 -/

/-- C10: the route cache is keyed by `node_id` alone. Saving `r2` after
`r1`, where both share a `node_id` but belong to different networks,
leaves exactly `r2` retrievable under that node id and no other key
changed (so `r1` is gone entirely); and in any reachable state at most
one entry exists per `node_id`, regardless of network. -/
theorem route_cache_keyed_by_node_id (r1 r2 : Route) (s : RoutesState) (n : String)
    (hnode : r1.node_id = r2.node_id) (_hnet : r1.network_id ≠ r2.network_id)
    (hreach : CacheReachable s) :
    get_route r2.node_id (save_route r2 (save_route r1 s)) = some r2
    ∧ (∀ k, k ≠ r2.node_id → dictGet k (save_route r2 (save_route r1 s)) = dictGet k s)
    ∧ s.countP (fun kv => kv.2.nodeId == n) ≤ 1 := by
  refine ⟨?_, ?_, ?_⟩
  · unfold get_route save_route
    rw [dictGet_update_self]
    exact Route.from_dict_to_dict r2
  · intro k hk
    unfold save_route
    rw [dictGet_update_other hk, dictGet_update_other (hnode ▸ hk)]
  · have h := countP_nodeId_le_one n (fun _ => true) (cacheInv_of_reachable hreach)
    simpa using h

/-- Witness for C10: two routes for node "shared-node" in networks
"net-1" and "net-2"; after saving both, only the second is retrievable. -/
theorem route_cache_keyed_by_node_id_witness :
    get_route "shared-node"
        (save_route
          (Route.mk "net-2" "shared-node" ConnectivityType.direct TransportType.sse false [])
          (save_route
            (Route.mk "net-1" "shared-node" ConnectivityType.direct
              TransportType.websocket true [])
            []))
      = some
          (Route.mk "net-2" "shared-node" ConnectivityType.direct TransportType.sse false []) := by
  have h := route_cache_keyed_by_node_id
    (Route.mk "net-1" "shared-node" ConnectivityType.direct TransportType.websocket true [])
    (Route.mk "net-2" "shared-node" ConnectivityType.direct TransportType.sse false [])
    [] "shared-node" rfl (by decide) CacheReachable.empty
  exact h.1

/-! ## Claim C9 -/

/-- C9: `process_route_notification` never modifies the route cache.
The proxy test at `route_interface.py` line 163 compares the
`dedi_link.etc.enums.ConnectivityType` member held by every route read
back from the cache against `dedi_gateway.etc.enums.ConnectivityType.PROXY`
— members of two distinct Enum classes, never equal — so the eviction
branch is dead and the function is the identity on every state. In
particular, at the claim's failing input (a cached proxy route to
"broken"), the proxy entry survives the notification instead of being
evicted, refuting the claim's eviction clause; the no-route and
direct-route clauses hold trivially. -/
theorem process_route_notification_never_evicts :
    (∀ (target_node : String) (s : RoutesState),
        process_route_notification target_node s = s)
    ∧ get_route "broken"
        (process_route_notification "broken"
          (save_route
            (Route.mk "net-1" "broken" ConnectivityType.proxy TransportType.websocket true
              ["hop-1"])
            []))
      = some
          (Route.mk "net-1" "broken" ConnectivityType.proxy TransportType.websocket true
            ["hop-1"]) := by
  constructor
  · intro target_node s
    unfold process_route_notification
    cases get_route target_node s with
    | none => rfl
    | some connected_route => rfl
  · rfl

/-! ## Message types (`etc/enums.py`) -/

/-- The `MessageType` Python enum: the internal protocol message types. -/
inductive MessageType where
  | authRequest
  | authInvite
  | authRequestResponse
  | authInviteResponse
  | authConnect
deriving DecidableEq, Repr

def MessageType.value : MessageType → String
  | .authRequest => "uk.co.firefox2100.ddg.auth.request"
  | .authInvite => "uk.co.firefox2100.ddg.auth.invite"
  | .authRequestResponse => "uk.co.firefox2100.ddg.auth.request.response"
  | .authInviteResponse => "uk.co.firefox2100.ddg.auth.invite.response"
  | .authConnect => "uk.co.firefox2100.ddg.auth.connect"

/-- The `MessageType(...)` enum constructor call: `ValueError` (here
`none`) on any string that is not an internal protocol type. -/
def MessageType.fromValue (v : String) : Option MessageType :=
  if v = "uk.co.firefox2100.ddg.auth.request" then some .authRequest
  else if v = "uk.co.firefox2100.ddg.auth.invite" then some .authInvite
  else if v = "uk.co.firefox2100.ddg.auth.request.response" then some .authRequestResponse
  else if v = "uk.co.firefox2100.ddg.auth.invite.response" then some .authInviteResponse
  else if v = "uk.co.firefox2100.ddg.auth.connect" then some .authConnect
  else none

/-! ## Admission-message repository (`database/memory/network_message.py`)

The in-memory database dict has optional `receivedRequests` and
`sentRequests` sub-dicts (absent ≅ empty); records keep the serialised
request payload and a `status` string. We model the request payload by
its `messageType` field plus the remaining serialised content, which none
of the modelled operations inspect. -/

structure RequestPayload where
  messageType : String
  rest : String
deriving DecidableEq, Repr

structure ReceivedRequest where
  request : RequestPayload
  status : String
deriving DecidableEq, Repr

structure SentRequest where
  targetUrl : String
  request : RequestPayload
  requiresPolling : Bool
  status : String
deriving DecidableEq, Repr

structure MessageDb where
  receivedRequests : List (String × ReceivedRequest)
  sentRequests : List (String × SentRequest)
deriving DecidableEq, Repr

/-- The `NetworkMessageNotFoundException` of `etc/errors.py`. -/
inductive DbError where
  | networkMessageNotFound (request_id : String)
deriving DecidableEq, Repr

/-- The `MemoryNetworkMessageRepository.save_received_request` coroutine:
store the payload with `status = AuthMessageStatus.PENDING.value` under
the request's `metadata.message_id`. -/
def save_received_request (message_id : String) (payload : RequestPayload)
    (db : MessageDb) : MessageDb :=
  let pendingRecord : ReceivedRequest :=
    { request := payload, status := AuthMessageStatus.pending.value }
  { db with receivedRequests := dictUpdate message_id pendingRecord db.receivedRequests }

/-- The `MemoryNetworkMessageRepository.update_request_status` coroutine:
set the record's `status` field to `status.value` if the id is a received
request, else if it is a sent request, else raise
`NetworkMessageNotFoundException`. There is no check on the current
status. -/
def update_request_status (request_id : String) (status : AuthMessageStatus)
    (db : MessageDb) : Except DbError MessageDb :=
  match dictGet request_id db.receivedRequests with
  | some record =>
      let changed : ReceivedRequest := { record with status := status.value }
      .ok { db with receivedRequests := dictUpdate request_id changed db.receivedRequests }
  | none =>
      match dictGet request_id db.sentRequests with
      | some record =>
          let changed : SentRequest := { record with status := status.value }
          .ok { db with sentRequests := dictUpdate request_id changed db.sentRequests }
      | none => .error (.networkMessageNotFound request_id)

/-! ## The `PATCH /manage/requests/<id>` endpoint
(`respond_to_request` in `view/management.py`)

The admission-processing performed in the pending branch
(`AuthInterface.process_join_request` / `process_join_invite`) touches
the network repository, the KMS and the transports; it is passed in as
an opaque state transformer so that the guard's behaviour can be stated
for every possible processing effect. -/

inductive HttpResult where
  | httpError (code : Nat) (msg : String)
  | okMessage (msg : String)
  | internalError (msg : String)
deriving DecidableEq, Repr

/-- The `respond_to_request` view: fetch the received request (404 if
missing), refuse with 400 if its status is not `pending`, then dispatch
on the stored message type — `AUTH_REQUEST` and `AUTH_INVITE` are
processed, an unknown type raises `ValueError` (500), and any other
internal type is a 400. -/
def respond_to_request (request_id : String) (db : MessageDb)
    (processJoinRequest : MessageDb → MessageDb)
    (processJoinInvite : MessageDb → MessageDb) : HttpResult × MessageDb :=
  match dictGet request_id db.receivedRequests with
  | none =>
      (.httpError 404 ("Received request with ID " ++ request_id ++ " not found."), db)
  | some auth_request =>
      if auth_request.status ≠ AuthMessageStatus.pending.value then
        (.httpError 400 "Request has already been processed", db)
      else
        match MessageType.fromValue auth_request.request.messageType with
        | none => (.internalError "ValueError", db)
        | some MessageType.authRequest =>
            (.okMessage "Join request processed successfully", processJoinRequest db)
        | some MessageType.authInvite =>
            (.okMessage "Invite processed successfully", processJoinInvite db)
        | some _ => (.httpError 400 "Invalid request type", db)

/-! ## Claim C2 -/

/-- A database holding one received admission record whose status is
already `accepted` (non-pending). -/
def acceptedRecordDb : MessageDb :=
  { receivedRequests :=
      [("req-1",
        { request :=
            { messageType := "uk.co.firefox2100.ddg.auth.request", rest := "" }
          status := "accepted" })]
    sentRequests := [] }

/-- C2 counterexample: the repository operation `update_request_status`
moves the record "req-1" from the terminal status `accepted` back to
`rejected` — there is no terminal-status guard in the repository, so a
non-pending record's status is not immutable under the repository
operations named by the claim. -/
theorem update_request_status_not_terminal :
    (dictGet "req-1" acceptedRecordDb.receivedRequests).map (fun r => r.status)
      = some "accepted"
    ∧ update_request_status "req-1" AuthMessageStatus.rejected acceptedRecordDb
      = Except.ok
          { receivedRequests :=
              [("req-1",
                { request :=
                    { messageType := "uk.co.firefox2100.ddg.auth.request", rest := "" }
                  status := "rejected" })]
            sentRequests := [] } := by
  constructor <;> rfl

/-- C2 amended: the `PATCH /manage/requests/<id>` endpoint does enforce
terminality — on a received record whose status is not `pending` it
answers 400 "Request has already been processed" and performs no
processing, leaving the repository unchanged whatever the admission
processing would have done. The repository operation
`update_request_status` itself (and hence `POST /service/responses`,
which calls it unguarded) applies any status change unconditionally. -/
theorem respond_to_request_guards_non_pending (request_id : String) (db : MessageDb)
    (processJoinRequest processJoinInvite : MessageDb → MessageDb)
    (record : ReceivedRequest)
    (hrec : dictGet request_id db.receivedRequests = some record)
    (hstatus : record.status ≠ AuthMessageStatus.pending.value) :
    respond_to_request request_id db processJoinRequest processJoinInvite
      = (HttpResult.httpError 400 "Request has already been processed", db) := by
  unfold respond_to_request
  rw [hrec]
  show (if record.status ≠ AuthMessageStatus.pending.value then _ else _) = _
  rw [if_pos hstatus]

/-- Witness for the amended C2 at the concrete accepted record, with an
admission processing that would wipe the repository if it ever ran. -/
theorem respond_to_request_guards_non_pending_witness :
    respond_to_request "req-1" acceptedRecordDb
        (fun _ => { receivedRequests := [], sentRequests := [] })
        (fun _ => { receivedRequests := [], sentRequests := [] })
      = (HttpResult.httpError 400 "Request has already been processed", acceptedRecordDb) :=
  respond_to_request_guards_non_pending "req-1" acceptedRecordDb _ _
    { request := { messageType := "uk.co.firefox2100.ddg.auth.request", rest := "" }
      status := "accepted" }
    rfl (by decide)

/-! ## The `Node` model (`model/node.py`)

The `data_index` dict and the floating-point `score` play no part in any
modelled operation and are omitted from the embedding. -/

structure Node where
  node_id : String
  node_name : String
  url : String
  description : String
  public_key : Option String
  approved : Bool
deriving DecidableEq, Repr

/-! ## `NetworkInterface.send_message` and `broadcast_message`
(`model/network_interface/network_interface.py`)

`send_message` consults the route cache: no route raises
`NodeNotConnectedException`; a direct websocket route, or a direct
inbound SSE route, publishes to the broker (which cannot fail); a direct
outbound SSE route POSTs to the peer, which may raise
`NetworkRequestFailedException` (the `postOk` oracle says whether the
HTTP POST succeeds); a proxy route raises `NotImplementedError`. A
route whose connectivity is `offline` matches neither branch, so the
coroutine falls through and returns normally. -/

inductive SendOutcome where
  | sent
  | nodeNotConnected
  | networkRequestFailed
  | notImplementedProxy
deriving DecidableEq, Repr

def send_message (node : Node) (routes : RoutesState) (postOk : String → Bool) :
    SendOutcome :=
  match get_route node.node_id routes with
  | none => .nodeNotConnected
  | some route =>
      match route.connectivity_type with
      | ConnectivityType.direct =>
          match route.transport_type with
          | TransportType.websocket => .sent
          | TransportType.sse =>
              if !route.outbound then .sent
              else if postOk node.node_id then .sent else .networkRequestFailed
      | ConnectivityType.proxy => .notImplementedProxy
      | ConnectivityType.offline => .sent

/-- The `NetworkInterface.broadcast_message` coroutine over the nodes of
the message's network: attempt `send_message` for each approved node,
swallow `NodeNotConnectedException` and `NetworkRequestFailedException`,
count the sends that completed. `NotImplementedError` from a proxy route
is NOT caught and propagates. -/
def broadcast_message (nodes : List Node) (routes : RoutesState)
    (postOk : String → Bool) : Except String Nat :=
  match nodes with
  | [] => .ok 0
  | node :: rest =>
      if node.approved then
        match send_message node routes postOk with
        | .sent => (broadcast_message rest routes postOk).map (· + 1)
        | .nodeNotConnected => broadcast_message rest routes postOk
        | .networkRequestFailed => broadcast_message rest routes postOk
        | .notImplementedProxy =>
            .error "NotImplementedError: Proxy connection logic is not implemented yet."
      else broadcast_message rest routes postOk

/-! ## The `POST /manage/messages` endpoint
(`send_message` in `view/management.py`, named `send_message_view` here
to avoid the clash with the interface method)

The registry lookup, the per-network node set, the broadcast result and
the broker's collected responses are abstracted as parameters; the
decision structure is translated line by line. `db.nodes.get(None)`
returns `None` (the node dict is keyed by node-id strings), after which
`node.approved` raises `AttributeError`, surfaced by the
`exception_handler` decorator as an HTTP 500. -/

structure SendMessageBody where
  messageType : String
  messageId : String
  broadcast : Bool
  targetNode : Option String
deriving DecidableEq, Repr

inductive SendEndpointResult where
  | httpError (code : Nat) (msg : String)
  | attributeErrorNoneApproved
  | delivered (deliveredCount : Nat) (responses : List String)
deriving DecidableEq, Repr

def send_message_view (body : SendMessageBody)
    (registryHas : String → Bool)
    (nodes : List (String × Node))
    (routes : RoutesState)
    (postOk : String → Bool)
    (networkNodes : List Node)
    (responsesFor : String → Nat → List String) : SendEndpointResult :=
  match MessageType.fromValue body.messageType with
  | some _ => .httpError 400 "Internal message type cannot be sent directly."
  | none =>
      if !registryHas body.messageType then
        .httpError 404 "Message configuration not found."
      else
        match body.targetNode with
        | none => .attributeErrorNoneApproved
        | some target =>
            match dictGet target nodes with
            | none => .attributeErrorNoneApproved
            | some node =>
                if !node.approved then
                  .httpError 403 ("Node " ++ node.node_id ++ " is not approved to communicate.")
                else if body.broadcast then
                  match broadcast_message networkNodes routes postOk with
                  | .error msg => .httpError 500 msg
                  | .ok sent => .delivered sent (responsesFor body.messageId sent)
                else
                  match send_message node routes postOk with
                  | .sent => .delivered 1 (responsesFor body.messageId 1)
                  | .nodeNotConnected => .httpError 503 ("No route found for node " ++ target ++ ".")
                  | .networkRequestFailed => .httpError 502 "Network request failed."
                  | .notImplementedProxy =>
                      .httpError 500 "NotImplementedError: Proxy connection logic is not implemented yet."

/-! ## Claim C4 -/

/-- C4: a broadcast request whose body omits `targetNode` never reaches
the broadcast: for every custom (non-internal, registered) message type
the endpoint evaluates `node.approved` on the `None` returned by
`db.nodes.get(None)` and dies with `AttributeError` (HTTP 500), whatever
the database, routes and broker contain. This refutes the claim that
`targetNode` is not required for a broadcast. -/
theorem send_message_view_broadcast_requires_target
    (messageType messageId : String) (registryHas : String → Bool)
    (nodes : List (String × Node)) (routes : RoutesState) (postOk : String → Bool)
    (networkNodes : List Node) (responsesFor : String → Nat → List String)
    (hcustom : MessageType.fromValue messageType = none)
    (hknown : registryHas messageType = true) :
    send_message_view
        { messageType := messageType, messageId := messageId,
          broadcast := true, targetNode := none }
        registryHas nodes routes postOk networkNodes responsesFor
      = SendEndpointResult.attributeErrorNoneApproved := by
  unfold send_message_view
  rw [hcustom]
  simp [hknown]

/-- Witness for C4: concrete custom message type "com.example.custom",
registered in the registry, with an approved and connected peer — the
broadcast body without `targetNode` still produces the
`AttributeError`. -/
theorem send_message_view_broadcast_requires_target_witness :
    send_message_view
        { messageType := "com.example.custom", messageId := "msg-1",
          broadcast := true, targetNode := none }
        (fun t => t = "com.example.custom")
        [("peer-1",
          { node_id := "peer-1", node_name := "Peer", url := "https://peer.example",
            description := "", public_key := none, approved := true })]
        (save_route
          (Route.mk "net-1" "peer-1" ConnectivityType.direct TransportType.websocket true [])
          [])
        (fun _ => true)
        [{ node_id := "peer-1", node_name := "Peer", url := "https://peer.example",
           description := "", public_key := none, approved := true }]
        (fun _ _ => [])
      = SendEndpointResult.attributeErrorNoneApproved :=
  send_message_view_broadcast_requires_target "com.example.custom" "msg-1" _ _ _ _ _ _
    (by decide) (by decide)

/-! ## Claim C5 -/

theorem broadcast_message_count (nodes : List Node) (routes : RoutesState)
    (postOk : String → Bool)
    (h : ∀ node ∈ nodes, node.approved = true →
        send_message node routes postOk ≠ SendOutcome.notImplementedProxy) :
    broadcast_message nodes routes postOk
      = Except.ok (nodes.countP
          (fun node => node.approved && (send_message node routes postOk == SendOutcome.sent))) := by
  induction nodes with
  | nil => simp [broadcast_message]
  | cons node rest ih =>
      have hrest : ∀ n ∈ rest, n.approved = true →
          send_message n routes postOk ≠ SendOutcome.notImplementedProxy :=
        fun n hn => h n (List.mem_cons_of_mem _ hn)
      by_cases happ : node.approved = true
      · cases hsend : send_message node routes postOk with
        | sent =>
            have hp : (node.approved && (send_message node routes postOk == SendOutcome.sent))
                = true := by rw [happ, hsend]; rfl
            rw [List.countP_cons_of_pos _ rest hp]
            simp only [broadcast_message, happ, if_pos rfl, hsend]
            rw [ih hrest]
            rfl
        | nodeNotConnected =>
            have hp : ¬((node.approved && (send_message node routes postOk == SendOutcome.sent))
                = true) := by rw [happ, hsend]; simp
            rw [List.countP_cons_of_neg _ rest hp]
            simp only [broadcast_message, happ, if_pos rfl, hsend]
            exact ih hrest
        | networkRequestFailed =>
            have hp : ¬((node.approved && (send_message node routes postOk == SendOutcome.sent))
                = true) := by rw [happ, hsend]; simp
            rw [List.countP_cons_of_neg _ rest hp]
            simp only [broadcast_message, happ, if_pos rfl, hsend]
            exact ih hrest
        | notImplementedProxy =>
            exact absurd hsend (h node (List.mem_cons_self _ _) happ)
      · have happ' : node.approved = false := by
          cases hval : node.approved
          · rfl
          · exact absurd hval happ
        have hp : ¬((node.approved && (send_message node routes postOk == SendOutcome.sent))
            = true) := by rw [happ']; simp
        rw [List.countP_cons_of_neg _ rest hp]
        simp only [broadcast_message, happ']
        exact ih hrest

theorem broadcast_message_filter_approved (nodes : List Node) (routes : RoutesState)
    (postOk : String → Bool) :
    broadcast_message nodes routes postOk
      = broadcast_message (nodes.filter (fun node => node.approved)) routes postOk := by
  induction nodes with
  | nil => rfl
  | cons node rest ih =>
      cases happ : node.approved
      · simp only [broadcast_message, happ, List.filter_cons, Bool.false_eq_true, if_neg,
          if_false]
        exact ih
      · simp only [broadcast_message, happ, List.filter_cons, if_pos rfl, if_true]
        cases send_message node routes postOk <;> simp [broadcast_message, ih]

/-- C5 counterexample: with one approved peer whose cached route is a
proxy route, `broadcast_message` does not return a count at all — the
`NotImplementedError` raised by `send_message` is not among the caught
exceptions and propagates — refuting the claim that the function always
returns the number of successful sends. -/
theorem broadcast_message_raises_on_proxy_route :
    broadcast_message
        [{ node_id := "peer-proxy", node_name := "P", url := "https://p.example",
           description := "", public_key := none, approved := true }]
        (save_route
          (Route.mk "net-1" "peer-proxy" ConnectivityType.proxy TransportType.websocket true
            ["hop-1"])
          [])
        (fun _ => true)
      = Except.error "NotImplementedError: Proxy connection logic is not implemented yet." := by
  rfl

/-- C5 amended: provided no approved peer's cached route is a proxy route
(proxy delivery is unimplemented and its `NotImplementedError` escapes),
`broadcast_message` attempts delivery only to approved nodes of the
message's network (unapproved nodes are irrelevant to the result),
swallows `NodeNotConnectedException` and `NetworkRequestFailedException`,
and returns exactly the number of sends that succeeded. -/
theorem broadcast_message_spec (nodes : List Node) (routes : RoutesState)
    (postOk : String → Bool)
    (hnoproxy : ∀ node ∈ nodes, node.approved = true →
        send_message node routes postOk ≠ SendOutcome.notImplementedProxy) :
    broadcast_message nodes routes postOk
      = Except.ok (nodes.countP
          (fun node => node.approved && (send_message node routes postOk == SendOutcome.sent)))
    ∧ broadcast_message nodes routes postOk
      = broadcast_message (nodes.filter (fun node => node.approved)) routes postOk :=
  ⟨broadcast_message_count nodes routes postOk hnoproxy,
   broadcast_message_filter_approved nodes routes postOk⟩

/-- Witness for the amended C5, mirroring the spec's partial-failure
scenario: of three approved peers one has no route (offline); a fourth
node is unapproved; the broadcast reports two successful sends. -/
theorem broadcast_message_spec_witness :
    broadcast_message
        [{ node_id := "peer-ws", node_name := "A", url := "https://a.example",
           description := "", public_key := none, approved := true },
         { node_id := "peer-sse", node_name := "B", url := "https://b.example",
           description := "", public_key := none, approved := true },
         { node_id := "peer-off", node_name := "C", url := "https://c.example",
           description := "", public_key := none, approved := true },
         { node_id := "peer-un", node_name := "D", url := "https://d.example",
           description := "", public_key := none, approved := false }]
        (save_route
          (Route.mk "net-1" "peer-sse" ConnectivityType.direct TransportType.sse false [])
          (save_route
            (Route.mk "net-1" "peer-ws" ConnectivityType.direct TransportType.websocket true [])
            []))
        (fun _ => false)
      = Except.ok 2 := by
  have h := (broadcast_message_spec
    [{ node_id := "peer-ws", node_name := "A", url := "https://a.example",
       description := "", public_key := none, approved := true },
     { node_id := "peer-sse", node_name := "B", url := "https://b.example",
       description := "", public_key := none, approved := true },
     { node_id := "peer-off", node_name := "C", url := "https://c.example",
       description := "", public_key := none, approved := true },
     { node_id := "peer-un", node_name := "D", url := "https://d.example",
       description := "", public_key := none, approved := false }]
    (save_route
      (Route.mk "net-1" "peer-sse" ConnectivityType.direct TransportType.sse false [])
      (save_route
        (Route.mk "net-1" "peer-ws" ConnectivityType.direct TransportType.websocket true [])
        []))
    (fun _ => false)
    (by decide)).1
  rw [h]
  rfl

/-! ## The challenge cache (`cache/memory/cache.py`) and the
`POST /service/requests` endpoint (`submit_request` in `view/service.py`)

Times are seconds since the epoch (`time.time()`), embedded as `Nat`.
The proof-of-work verification (`powlib.validate`, a SHA-256 preimage
check the spec treats as an opaque oracle) and the RSA signature check
are passed in as parameters; the response's `reachable` flag comes from
the external connectivity probe. -/

structure ChallengeEntry where
  difficulty : Nat
  timestamp : Nat
deriving DecidableEq, Repr

abbrev ChallengesState := List (String × ChallengeEntry)

/-- The `MemoryCache.save_challenge` coroutine. -/
def save_challenge (nonce : String) (difficulty : Nat) (now : Nat)
    (s : ChallengesState) : ChallengesState :=
  dictUpdate nonce { difficulty := difficulty, timestamp := now } s

/-- The `MemoryCache.get_challenge` coroutine: the stored difficulty if
the nonce exists and is younger than 300 seconds, else `None`. -/
def get_challenge (nonce : String) (now : Nat) (s : ChallengesState) : Option Nat :=
  match dictGet nonce s with
  | some challenge =>
      if challenge.timestamp + 300 > now then some challenge.difficulty else none
  | none => none

structure SubmitRequestData where
  nonce : String
  solution : Nat
  messageType : String
  messageId : String
  payloadRest : String
deriving DecidableEq, Repr

inductive SubmitResult where
  | httpError (code : Nat) (msg : String)
  | internalError (msg : String)
  | success (reachable : Bool)
deriving DecidableEq, Repr

/-- The `submit_request` view: body/signature presence checks, then the
challenge gate (`if not challenge_difficulty`, so a difficulty of 0 is
treated like a missing nonce, exactly as Python truthiness does), then
the proof-of-work check, then per-type signature verification and
persistence of the received admission record with status `pending`. -/
def submit_request (data : SubmitRequestData) (hasData hasSignature : Bool)
    (now : Nat) (challenges : ChallengesState)
    (validate : String → Nat → Nat → Bool)
    (signatureValid : Bool) (reachable : Bool)
    (db : MessageDb) : SubmitResult × MessageDb :=
  if !hasData then (.httpError 400 "No data provided in request.", db)
  else if !hasSignature then
    (.httpError 400 "No signature provided in request headers.", db)
  else
    match get_challenge data.nonce now challenges with
    | none => (.httpError 403 "Invalid challenge nonce.", db)
    | some challenge_difficulty =>
        if challenge_difficulty = 0 then (.httpError 403 "Invalid challenge nonce.", db)
        else if !validate data.nonce challenge_difficulty data.solution then
          (.httpError 403 "Invalid challenge solution.", db)
        else
          match MessageType.fromValue data.messageType with
          | none => (.internalError "ValueError", db)
          | some MessageType.authRequest =>
              if !signatureValid then
                (.httpError 403 "Invalid signature for auth request.", db)
              else
                (.success reachable,
                 save_received_request data.messageId
                   { messageType := data.messageType, rest := data.payloadRest } db)
          | some MessageType.authInvite =>
              if !signatureValid then
                (.httpError 403 "Invalid signature for auth invite.", db)
              else
                (.success reachable,
                 save_received_request data.messageId
                   { messageType := data.messageType, rest := data.payloadRest } db)
          | some _ => (.httpError 400 "Invalid message type specified.", db)

/-! ## Claim C6 -/

/-- C6: an admission POST whose challenge nonce is absent from the cache
or expired is answered 403 "Invalid challenge nonce." with the
received-requests store untouched; and when the nonce is live but the
proof-of-work check fails, the answer is 403 "Invalid challenge
solution.", again before any record is persisted. -/
theorem submit_request_challenge_gate (data : SubmitRequestData) (now : Nat)
    (challenges : ChallengesState) (validate : String → Nat → Nat → Bool)
    (signatureValid reachable : Bool) (db : MessageDb) :
    ((dictGet data.nonce challenges = none
        ∨ ∃ c, dictGet data.nonce challenges = some c ∧ c.timestamp + 300 ≤ now) →
      submit_request data true true now challenges validate signatureValid reachable db
        = (SubmitResult.httpError 403 "Invalid challenge nonce.", db))
    ∧ (∀ c, dictGet data.nonce challenges = some c → c.timestamp + 300 > now →
        c.difficulty ≠ 0 → validate data.nonce c.difficulty data.solution = false →
          submit_request data true true now challenges validate signatureValid reachable db
            = (SubmitResult.httpError 403 "Invalid challenge solution.", db)) := by
  constructor
  · intro habsent
    have hnone : get_challenge data.nonce now challenges = none := by
      unfold get_challenge
      rcases habsent with h | ⟨c, hc, hexp⟩
      · rw [h]
      · rw [hc]
        show (if c.timestamp + 300 > now then some c.difficulty else none) = none
        rw [if_neg (by omega)]
    simp [submit_request, hnone]
  · intro c hc hlive hdiff hpow
    have hsome : get_challenge data.nonce now challenges = some c.difficulty := by
      unfold get_challenge
      rw [hc]
      show (if c.timestamp + 300 > now then some c.difficulty else none) = some c.difficulty
      rw [if_pos hlive]
    simp [submit_request, hsome, hpow, hdiff]

/-- Witness for C6: a stale nonce (saved at t=0, queried at t=1000) is
refused, and with a live nonce a wrong proof-of-work solution is
refused; in both cases the store stays empty. -/
theorem submit_request_challenge_gate_witness :
    submit_request
        { nonce := "stale-nonce", solution := 42,
          messageType := "uk.co.firefox2100.ddg.auth.request",
          messageId := "m-1", payloadRest := "" }
        true true 1000
        (save_challenge "stale-nonce" 22 0 [])
        (fun _ _ _ => true) true true
        { receivedRequests := [], sentRequests := [] }
      = (SubmitResult.httpError 403 "Invalid challenge nonce.",
         { receivedRequests := [], sentRequests := [] })
    ∧ submit_request
        { nonce := "live-nonce", solution := 42,
          messageType := "uk.co.firefox2100.ddg.auth.request",
          messageId := "m-1", payloadRest := "" }
        true true 100
        (save_challenge "live-nonce" 22 0 [])
        (fun _ _ _ => false) true true
        { receivedRequests := [], sentRequests := [] }
      = (SubmitResult.httpError 403 "Invalid challenge solution.",
         { receivedRequests := [], sentRequests := [] }) := by
  constructor
  · exact (submit_request_challenge_gate
      { nonce := "stale-nonce", solution := 42,
        messageType := "uk.co.firefox2100.ddg.auth.request",
        messageId := "m-1", payloadRest := "" }
      1000 (save_challenge "stale-nonce" 22 0 []) (fun _ _ _ => true) true true
      { receivedRequests := [], sentRequests := [] }).1
      (Or.inr ⟨{ difficulty := 22, timestamp := 0 }, by decide, by decide⟩)
  · exact (submit_request_challenge_gate
      { nonce := "live-nonce", solution := 42,
        messageType := "uk.co.firefox2100.ddg.auth.request",
        messageId := "m-1", payloadRest := "" }
      100 (save_challenge "live-nonce" 22 0 []) (fun _ _ _ => false) true true
      { receivedRequests := [], sentRequests := [] }).2
      { difficulty := 22, timestamp := 0 } (by decide) (by decide) (by decide) rfl

/-! ## The in-memory message broker (`cache/memory/message_broker.py`)

`AsyncQueue` is a Python list used FIFO: `put` appends at the back,
`get` / `pop_by_index(0)` removes the front. `MemoryMessageBroker`
keeps one queue per node id (`_messages`) and one per message id
(`_responses`). The polling/timeout loops concern real time; their
data effect is: a successful retrieval pops the head, and a drained
queue eventually yields `None` (`get_message`) or raises
`MessageBrokerTimeoutException` (`response_generator`). -/

abbrev BrokerQueues := List (String × List String)

/-- The `MemoryMessageBroker.publish_message` coroutine: create the
queue for the node id if needed and append the message at the back. -/
def publish_message (node_id : String) (message : String) (s : BrokerQueues) :
    BrokerQueues :=
  match dictGet node_id s with
  | none => dictUpdate node_id [message] s
  | some queue => dictUpdate node_id (queue ++ [message]) s

/-- The `MemoryMessageBroker.add_to_response` coroutine: identical queue
discipline, keyed by the response's `metadata.messageId`. -/
def add_to_response (message_id : String) (message : String) (s : BrokerQueues) :
    BrokerQueues :=
  match dictGet message_id s with
  | none => dictUpdate message_id [message] s
  | some queue => dictUpdate message_id (queue ++ [message]) s

/-- The `MemoryMessageBroker.get_message` coroutine: pop the head of the
node's queue; an absent or empty queue times out to `None`. -/
def get_message (node_id : String) (s : BrokerQueues) : Option String × BrokerQueues :=
  match dictGet node_id s with
  | some (m :: rest) => (some m, dictUpdate node_id rest s)
  | _ => (none, s)

/-- Repeated `get_message` calls (the per-peer send loop). -/
def get_messages (node_id : String) : Nat → BrokerQueues → List String × BrokerQueues
  | 0, s => ([], s)
  | n + 1, s =>
      match dictGet node_id s with
      | some (m :: rest) =>
          let tail := get_messages node_id n (dictUpdate node_id rest s)
          (m :: tail.1, tail.2)
      | _ => ([], s)

/-- The `MemoryMessageBroker.response_generator` coroutine: yield up to
`message_count` responses, popping the head of the queue keyed by the
message id; if the queue runs dry before the count is reached the
generator raises `MessageBrokerTimeoutException` (the `Bool` is the
timed-out flag). -/
def response_generator (message_id : String) :
    Nat → BrokerQueues → List String × Bool × BrokerQueues
  | 0, s => ([], false, s)
  | n + 1, s =>
      match dictGet message_id s with
      | some (m :: rest) =>
          let tail := response_generator message_id n (dictUpdate message_id rest s)
          (m :: tail.1, tail.2.1, tail.2.2)
      | _ => ([], true, s)

/-- Publishing a whole sequence to one key. -/
def publish_all (node_id : String) (msgs : List String) (s : BrokerQueues) :
    BrokerQueues :=
  msgs.foldl (fun st m => publish_message node_id m st) s

/-- Adding a whole sequence of responses for one message id. -/
def add_all_responses (message_id : String) (msgs : List String) (s : BrokerQueues) :
    BrokerQueues :=
  msgs.foldl (fun st m => add_to_response message_id m st) s

/-- The queue currently stored for a key (absent ≅ empty). -/
def queueOf (key : String) (s : BrokerQueues) : List String :=
  (dictGet key s).getD []

theorem publish_message_queue (key : String) (m : String) (s : BrokerQueues) :
    dictGet key (publish_message key m s) = some (queueOf key s ++ [m]) := by
  unfold publish_message queueOf
  cases h : dictGet key s with
  | none => rw [dictGet_update_self]; rfl
  | some q => rw [dictGet_update_self]; rfl

theorem add_to_response_queue (key : String) (m : String) (s : BrokerQueues) :
    dictGet key (add_to_response key m s) = some (queueOf key s ++ [m]) := by
  unfold add_to_response queueOf
  cases h : dictGet key s with
  | none => rw [dictGet_update_self]; rfl
  | some q => rw [dictGet_update_self]; rfl

theorem publish_all_queue_some (key : String) (msgs q : List String) (s : BrokerQueues)
    (h : dictGet key s = some q) :
    dictGet key (publish_all key msgs s) = some (q ++ msgs) := by
  induction msgs generalizing q s with
  | nil => simpa using h
  | cons m rest ih =>
      have hstep : dictGet key (publish_message key m s) = some (q ++ [m]) := by
        unfold publish_message
        rw [h, dictGet_update_self]
      have htail := ih (q ++ [m]) (publish_message key m s) hstep
      unfold publish_all at htail ⊢
      rw [List.foldl_cons, htail]
      simp

theorem publish_all_queue_empty (key : String) (msgs : List String) (s : BrokerQueues)
    (hempty : dictGet key s = none ∨ dictGet key s = some []) (hne : msgs ≠ []) :
    dictGet key (publish_all key msgs s) = some msgs := by
  cases msgs with
  | nil => exact absurd rfl hne
  | cons m rest =>
      have hstep : dictGet key (publish_message key m s) = some [m] := by
        unfold publish_message
        rcases hempty with h | h <;> rw [h] <;> exact dictGet_update_self key _ s
      have htail := publish_all_queue_some key rest [m] (publish_message key m s) hstep
      unfold publish_all at htail ⊢
      rw [List.foldl_cons, htail]
      rfl

theorem add_all_responses_queue_some (key : String) (msgs q : List String)
    (s : BrokerQueues) (h : dictGet key s = some q) :
    dictGet key (add_all_responses key msgs s) = some (q ++ msgs) := by
  induction msgs generalizing q s with
  | nil => simpa using h
  | cons m rest ih =>
      have hstep : dictGet key (add_to_response key m s) = some (q ++ [m]) := by
        unfold add_to_response
        rw [h, dictGet_update_self]
      have htail := ih (q ++ [m]) (add_to_response key m s) hstep
      unfold add_all_responses at htail ⊢
      rw [List.foldl_cons, htail]
      simp

theorem add_all_responses_queue_empty (key : String) (msgs : List String)
    (s : BrokerQueues)
    (hempty : dictGet key s = none ∨ dictGet key s = some []) (hne : msgs ≠ []) :
    dictGet key (add_all_responses key msgs s) = some msgs := by
  cases msgs with
  | nil => exact absurd rfl hne
  | cons m rest =>
      have hstep : dictGet key (add_to_response key m s) = some [m] := by
        unfold add_to_response
        rcases hempty with h | h <;> rw [h] <;> exact dictGet_update_self key _ s
      have htail := add_all_responses_queue_some key rest [m] (add_to_response key m s) hstep
      unfold add_all_responses at htail ⊢
      rw [List.foldl_cons, htail]
      rfl

theorem get_messages_drain (key : String) (q : List String) (s : BrokerQueues)
    (h : dictGet key s = some q) : (get_messages key q.length s).1 = q := by
  induction q generalizing s with
  | nil => rfl
  | cons m rest ih =>
      have hupd : dictGet key (dictUpdate key rest s) = some rest :=
        dictGet_update_self key rest s
      have htail := ih (dictUpdate key rest s) hupd
      show (get_messages key (rest.length + 1) s).1 = m :: rest
      unfold get_messages
      rw [h]
      simpa using htail

theorem response_generator_drain (key : String) (q : List String) (s : BrokerQueues)
    (h : dictGet key s = some q) :
    (response_generator key q.length s).1 = q
    ∧ (response_generator key q.length s).2.1 = false := by
  induction q generalizing s with
  | nil => exact ⟨rfl, rfl⟩
  | cons m rest ih =>
      have hupd : dictGet key (dictUpdate key rest s) = some rest :=
        dictGet_update_self key rest s
      obtain ⟨h1, h2⟩ := ih (dictUpdate key rest s) hupd
      constructor
      · show (response_generator key (rest.length + 1) s).1 = m :: rest
        unfold response_generator
        rw [h]
        simpa using h1
      · show (response_generator key (rest.length + 1) s).2.1 = false
        unfold response_generator
        rw [h]
        simpa using h2

/-! ## Claim C7 -/

/-- C7: the broker is FIFO per key. For any key whose queue starts empty
(or absent) and any sequence published to it, repeated `get_message`
calls return the messages in exactly the publication order, and
`response_generator` yields them in exactly the insertion order (without
timing out); publishing under a different key leaves this key's queue
untouched, so no cross-key claim is involved. -/
theorem broker_fifo_per_key (key : String) (msgs : List String) (s s' : BrokerQueues)
    (hempty : dictGet key s = none ∨ dictGet key s = some [])
    (hempty' : dictGet key s' = none ∨ dictGet key s' = some []) :
    (get_messages key msgs.length (publish_all key msgs s)).1 = msgs
    ∧ (response_generator key msgs.length (add_all_responses key msgs s')).1 = msgs
    ∧ (response_generator key msgs.length (add_all_responses key msgs s')).2.1 = false
    ∧ ∀ k m, k ≠ key → dictGet key (publish_message k m s) = dictGet key s := by
  refine ⟨?_, ?_, ?_, ?_⟩
  · cases msgs with
    | nil => rfl
    | cons m rest =>
        exact get_messages_drain key (m :: rest) _
          (publish_all_queue_empty key (m :: rest) s hempty (by simp))
  · cases msgs with
    | nil => rfl
    | cons m rest =>
        exact (response_generator_drain key (m :: rest) _
          (add_all_responses_queue_empty key (m :: rest) s' hempty' (by simp))).1
  · cases msgs with
    | nil => rfl
    | cons m rest =>
        exact (response_generator_drain key (m :: rest) _
          (add_all_responses_queue_empty key (m :: rest) s' hempty' (by simp))).2
  · intro k m hk
    unfold publish_message
    cases dictGet k s with
    | none => exact dictGet_update_other (fun hc => hk hc.symm) _ s
    | some q => exact dictGet_update_other (fun hc => hk hc.symm) _ s

/-- Witness for C7: three messages published to "node-a" (after an
unrelated publication to "node-b") come back in order both through
`get_messages` and through `response_generator`. -/
theorem broker_fifo_per_key_witness :
    (get_messages "node-a" 3
        (publish_all "node-a" ["m1", "m2", "m3"]
          (publish_message "node-b" "x" []))).1
      = ["m1", "m2", "m3"]
    ∧ (response_generator "node-a" 3
        (add_all_responses "node-a" ["m1", "m2", "m3"] [])).1
      = ["m1", "m2", "m3"] := by
  have h := broker_fifo_per_key "node-a" ["m1", "m2", "m3"]
    (publish_message "node-b" "x" []) []
    (Or.inl (by decide)) (Or.inl rfl)
  exact ⟨h.1, h.2.1⟩

/-! ## `NetworkDriver.check_connectivity`
(`model/network_interface/network_interface.py`)

DNS resolution (`socket.getaddrinfo`) and the probing GET are external:
the resolved addresses arrive as a list of classification records (the
`ipaddress` predicates the code consults), and the GET as an oracle
returning the status code, `none` standing for `httpx.RequestError` or a
timeout (both caught and turned into `False`). The probe client uses a
2-second connect/read/write/pool timeout (`httpx.Timeout(2.0)` in the
source); real elapsed time is outside the embedding, so the oracle's
`none` also covers the timeout expiring. -/

structure IpInfo where
  is_private : Bool
  is_loopback : Bool
  is_reserved : Bool
  is_link_local : Bool
deriving DecidableEq, Repr

/-- The disjunction tested inside the resolution loop. -/
def IpInfo.isLocal (ip : IpInfo) : Bool :=
  ip.is_private || ip.is_loopback || ip.is_reserved || ip.is_link_local

/-- The `check_connectivity` coroutine: reject non-http(s) schemes
(`ValueError`, caught, `False`); return `False` as soon as any resolved
address is private, loopback, reserved or link-local; otherwise issue
the GET and succeed exactly on status 200, with request errors and
timeouts caught to `False`. -/
def check_connectivity (scheme : String) (addresses : List IpInfo)
    (httpGet : Option Nat) : Bool :=
  if scheme ≠ "http" ∧ scheme ≠ "https" then false
  else if addresses.any IpInfo.isLocal then false
  else
    match httpGet with
    | some status_code => status_code == 200
    | none => false

/-! ## Claim C8 -/

/-- C8 counterexample: a host resolving to one public and one private
address does not resolve ONLY to local addresses, so the claim requires
the probe to run and return `true` on a 200 response; the code instead
returns `false` (it refuses when ANY resolved address is local), and it
never issues the request. -/
theorem check_connectivity_mixed_resolution :
    (List.all
        [IpInfo.mk false false false false, IpInfo.mk true false false false]
        IpInfo.isLocal) = false
    ∧ check_connectivity "http"
        [IpInfo.mk false false false false, IpInfo.mk true false false false]
        (some 200) = false := by
  constructor <;> rfl

/-- C8 amended: `check_connectivity` returns `false`, without the HTTP
request being able to influence the outcome, whenever ANY (not only when
every) resolved address is loopback, private, reserved or link-local —
in particular for `http://127.0.0.1/...`; for http/https URLs all of
whose resolved addresses are non-local it issues the 2-second GET and
returns `true` exactly when the status is 200 (request errors and
timeouts give `false`). -/
theorem check_connectivity_spec (scheme : String) (addresses : List IpInfo)
    (hscheme : scheme = "http" ∨ scheme = "https") :
    ((addresses.any IpInfo.isLocal) = true →
      ∀ httpGet : Option Nat, check_connectivity scheme addresses httpGet = false)
    ∧ ((addresses.any IpInfo.isLocal) = false →
      ∀ httpGet : Option Nat,
        check_connectivity scheme addresses httpGet
          = (httpGet == some 200)) := by
  have hs : ¬(scheme ≠ "http" ∧ scheme ≠ "https") := by
    rcases hscheme with h | h <;> simp [h]
  constructor
  · intro hlocal httpGet
    unfold check_connectivity
    rw [if_neg hs, if_pos hlocal]
  · intro hnone httpGet
    unfold check_connectivity
    rw [if_neg hs, if_neg (by rw [hnone]; exact Bool.false_ne_true)]
    cases httpGet with
    | none => rfl
    | some status_code =>
        show (status_code == 200) = (some status_code == some 200)
        cases hst : (status_code == 200) with
        | false =>
            symm
            simp only [beq_eq_false_iff_ne] at hst ⊢
            exact fun hc => hst (Option.some_injective _ hc)
        | true =>
            symm
            simp only [beq_iff_eq] at hst ⊢
            rw [hst]

/-- Witness for the amended C8: the loopback address 127.0.0.1 forces
`false` for every probe outcome, and a purely public resolution follows
the probe: 200 gives `true`, an error gives `false`. -/
theorem check_connectivity_spec_witness :
    check_connectivity "http" [IpInfo.mk false true false false] (some 200) = false
    ∧ check_connectivity "https" [IpInfo.mk false false false false] (some 200) = true
    ∧ check_connectivity "https" [IpInfo.mk false false false false] none = false := by
  have hloop := (check_connectivity_spec "http" [IpInfo.mk false true false false]
    (Or.inl rfl)).1 (by decide)
  have hpub := (check_connectivity_spec "https" [IpInfo.mk false false false false]
    (Or.inr rfl)).2 (by decide)
  exact ⟨hloop (some 200), by rw [hpub (some 200)]; rfl, by rw [hpub none]; rfl⟩

end DediGateway
